import Mathlib

/-!
Verification development for the AI_algotrading_async backtesting core.

Shallow embedding of the simulation and decision engine:
* `src/core/indicators.py`  — cross/EMA comparison helpers,
* `src/core/patterns.py`    — Quasimodo (QML) pattern detection,
* `src/strategies/base.py`  — `Signal`, `StrategyConfig`, filters,
  `generate_signal`,
* `src/strategies/macd_ema_bb.py` — entry checks, stop/target computation,
  exit conditions, trailing stop,
* `src/backtest/engine.py`  — the bar-by-bar simulation loop and statistics,
* `src/backtest/optimizer.py` — scoring and best-combination tracking.

Prices are modelled as rationals; the enriched data frame is a record of
aligned series (`Nat → Rat`) plus a length, exactly the columns read by the
decision logic.  Fallible paths use `Option`/`Except`.
-/

/- `Rat.add`/`sub`/`mul`/`inv` are `@[irreducible]` in Batteries, which
blocks `decide`/`rfl` evaluation of the concrete witnesses below; restore
the default reducibility for this development. -/
attribute [local semireducible] Rat.sub Rat.add Rat.mul Rat.inv

/-- Enriched data frame: one aligned series per column that the decision
logic reads (`df["..."]` accesses in the source).  `length` is `len(df)`. -/
structure Df where
  high : Nat → Rat
  low : Nat → Rat
  close : Nat → Rat
  volume : Nat → Rat
  ema : Nat → Rat
  macd : Nat → Rat
  signal : Nat → Rat
  bb_upper : Nat → Rat
  bb_mid : Nat → Rat
  bb_lower : Nat → Rat
  bb_width : Nat → Rat
  atr : Nat → Rat
  vol_avg : Nat → Rat
  length : Nat

/-- `StrategyConfig` (src/strategies/base.py).  Only the fields consumed by
the decision logic are modelled; the indicator-period fields are consumed
upstream by the indicator pipeline, which produces the `Df` columns. -/
structure StrategyConfig where
  atr_sl_mult : Rat := 3/2
  rr_ratio : Rat := 2
  qml_order : Nat := 3
  qml_recency : Nat := 20
  use_qml : Bool := false
  use_qml_extreme_sl : Bool := false
  use_vol_filter : Bool := false
  vol_filter_mult : Rat := 4/5
  squeeze_threshold : Rat := 1

/-- `Signal` dataclass (src/strategies/base.py). -/
structure Signal where
  side : String
  entry_price : Rat
  stop_loss : Rat
  take_profit : Rat
deriving DecidableEq

/-- `Signal.risk` property: distance entry → stop. -/
def Signal.risk (s : Signal) : Rat :=
  if s.side = "long" then s.entry_price - s.stop_loss
  else s.stop_loss - s.entry_price

/-- `Signal.reward` property: distance entry → target. -/
def Signal.reward (s : Signal) : Rat :=
  if s.side = "long" then s.take_profit - s.entry_price
  else s.entry_price - s.take_profit

/-- Mutable per-strategy memory (`self._last_qml_bull` / `self._last_qml_bear`
in `MacdEmaBbStrategy.__init__`), threaded explicitly. -/
structure StratState where
  last_qml_bull : Option Rat := none
  last_qml_bear : Option Rat := none
deriving DecidableEq

/-! ### indicators.py helpers -/

/-- `check_macd_cross_up` (src/core/indicators.py). -/
def check_macd_cross_up (macd signal : Nat → Rat) (idx : Nat) : Bool :=
  if idx < 1 then false
  else decide (macd idx > signal idx) && decide (macd (idx - 1) ≤ signal (idx - 1))

/-- `check_macd_cross_down` (src/core/indicators.py). -/
def check_macd_cross_down (macd signal : Nat → Rat) (idx : Nat) : Bool :=
  if idx < 1 then false
  else decide (macd idx < signal idx) && decide (macd (idx - 1) ≥ signal (idx - 1))

/-- `check_price_above_ema` (src/core/indicators.py). -/
def check_price_above_ema (close ema : Nat → Rat) (idx : Nat) : Bool :=
  decide (close idx > ema idx)

/-- `check_price_below_ema` (src/core/indicators.py). -/
def check_price_below_ema (close ema : Nat → Rat) (idx : Nat) : Bool :=
  decide (close idx < ema idx)

/-! ### patterns.py -/

/-- One point of `scipy.signal.argrelextrema(data, comparator, order)` with
the default `mode='clip'`: index `i` of an `n`-point array is flagged iff
`comparator(data[i], data[clip(i+k)])` and `comparator(data[i], data[clip(i-k)])`
hold for every `1 ≤ k ≤ order`, out-of-range indices clipped to `0` / `n-1`
(natural subtraction performs the left clip). -/
def relExtremaAt (cmp : Rat → Rat → Bool) (p : Nat → Rat) (n order i : Nat) : Bool :=
  (List.range order).all fun k =>
    cmp (p i) (p (min (i + (k + 1)) (n - 1))) && cmp (p i) (p (i - (k + 1)))

/-- `argrelextrema(prices, comparator, order)[0]`: the flagged indices in
increasing order. -/
def argrelextrema (cmp : Rat → Rat → Bool) (p : Nat → Rat) (n order : Nat) : List Nat :=
  (List.range n).filter (relExtremaAt cmp p n order)

/-- Shared tail of `detect_qml_bull` / `detect_qml_bear`
(src/core/patterns.py): take the three most recent extrema `i1 < i2 < i3`,
require `cmp p[i2] p[i1]` (sweep), `cmp p[i2] p[i3]` (reversal) and
`idx - i3 < recency`, and return the sweep level `p[i2]`. -/
def qmlFromMins (cmp : Rat → Rat → Bool) (p : Nat → Rat) (idx recency : Nat)
    (mins : List Nat) : Option Rat :=
  match mins.reverse with
  | i3 :: i2 :: i1 :: _ =>
      if cmp (p i2) (p i1) && cmp (p i2) (p i3) && decide (idx - i3 < recency)
      then some (p i2) else none
  | _ => none

/-- Comparator `np.less` as used by `detect_qml_bull`. -/
def qlt (a b : Rat) : Bool := decide (a < b)

/-- Comparator `np.greater` as used by `detect_qml_bear`. -/
def qgt (a b : Rat) : Bool := decide (b < a)

/-- `detect_qml_bull(df, idx, order, recency)` (src/core/patterns.py):
local minima of `df["low"][:idx+1]` via `argrelextrema(·, np.less, order)`;
needs three, with `low2 < low1`, `low3 > low2` and `idx - idx3 < recency`;
returns the sweep low `low2`. -/
def detect_qml_bull (low : Nat → Rat) (idx order recency : Nat) : Option Rat :=
  qmlFromMins qlt low idx recency (argrelextrema qlt low (idx + 1) order)

/-- `detect_qml_bear(df, idx, order, recency)` (src/core/patterns.py):
mirrored over `df["high"][:idx+1]` with `np.greater`. -/
def detect_qml_bear (high : Nat → Rat) (idx order recency : Nat) : Option Rat :=
  qmlFromMins qgt high idx recency (argrelextrema qgt high (idx + 1) order)

/-! ### strategies -/

/-- `BaseStrategy.check_filters` (src/strategies/base.py): optional volume
filter, then the always-active squeeze filter. -/
def check_filters (cfg : StrategyConfig) (df : Df) (idx : Nat) : Bool :=
  if cfg.use_vol_filter && decide (df.volume idx ≤ df.vol_avg idx * cfg.vol_filter_mult)
  then false
  else if df.bb_width idx < cfg.squeeze_threshold then false
  else true

/-- `MacdEmaBbStrategy.check_long_signal`: MACD cross up, close above EMA,
then the optional QML gate which remembers the detected level. -/
def check_long_signal (cfg : StrategyConfig) (st : StratState) (df : Df) (idx : Nat) :
    Bool × StratState :=
  if !check_macd_cross_up df.macd df.signal idx then (false, st)
  else if !check_price_above_ema df.close df.ema idx then (false, st)
  else if cfg.use_qml then
    match detect_qml_bull df.low idx cfg.qml_order cfg.qml_recency with
    | none => (false, st)
    | some lvl => (true, { st with last_qml_bull := some lvl })
  else (true, st)

/-- `MacdEmaBbStrategy.check_short_signal`: mirrored. -/
def check_short_signal (cfg : StrategyConfig) (st : StratState) (df : Df) (idx : Nat) :
    Bool × StratState :=
  if !check_macd_cross_down df.macd df.signal idx then (false, st)
  else if !check_price_below_ema df.close df.ema idx then (false, st)
  else if cfg.use_qml then
    match detect_qml_bear df.high idx cfg.qml_order cfg.qml_recency with
    | none => (false, st)
    | some lvl => (true, { st with last_qml_bear := some lvl })
  else (true, st)

/-- `MacdEmaBbStrategy.calculate_sl_tp`: stop from ATR offset (or the
remembered QML extreme in extreme-stop mode), target from risk × R:R. -/
def calculate_sl_tp (cfg : StrategyConfig) (st : StratState)
    (entry_price : Rat) (side : String) (atr : Rat) : Rat × Rat :=
  let atr_offset := atr * cfg.atr_sl_mult
  if side = "long" then
    let sl :=
      match cfg.use_qml_extreme_sl, st.last_qml_bull with
      | true, some lvl => lvl - atr_offset
      | _, _ => entry_price - atr_offset
    let risk := entry_price - sl
    (sl, entry_price + risk * cfg.rr_ratio)
  else
    let sl :=
      match cfg.use_qml_extreme_sl, st.last_qml_bear with
      | true, some lvl => lvl + atr_offset
      | _, _ => entry_price + atr_offset
    let risk := sl - entry_price
    (sl, entry_price - risk * cfg.rr_ratio)

/-- `BaseStrategy.generate_signal` (src/strategies/base.py): filters, then
long, then short (first match wins).  `entry_price = current_price or
df["close"].iloc[idx]` — Python's `or` falls back to the close when
`current_price` is `None` or `0.0`. -/
def generate_signal (cfg : StrategyConfig) (st : StratState) (df : Df) (idx : Nat)
    (current_price : Option Rat) : Option Signal × StratState :=
  if !check_filters cfg df idx then (none, st)
  else
    let entry_price :=
      match current_price with
      | some p => if p = 0 then df.close idx else p
      | none => df.close idx
    let atr := df.atr idx
    let resL := check_long_signal cfg st df idx
    if resL.1 then
      let sltp := calculate_sl_tp cfg resL.2 entry_price "long" atr
      (some ⟨"long", entry_price, sltp.1, sltp.2⟩, resL.2)
    else
      let resS := check_short_signal cfg resL.2 df idx
      if resS.1 then
        let sltp := calculate_sl_tp cfg resS.2 entry_price "short" atr
        (some ⟨"short", entry_price, sltp.1, sltp.2⟩, resS.2)
      else (none, resS.2)

/-- `MacdEmaBbStrategy.check_exit_conditions`: the Python version returns
`(should_exit, exit_price, exit_reason)` with `exit_price = None` exactly
when `should_exit` is false; packaged here as `Option (price × reason)`. -/
def check_exit_conditions (df : Df) (idx : Nat) (position_side : String)
    (entry_price stop_loss take_profit : Rat) : Option (Rat × String) :=
  let high := df.high idx
  let low := df.low idx
  let close := df.close idx
  if position_side = "long" then
    if low ≤ stop_loss then some (stop_loss, "stop_loss")
    else if high ≥ take_profit then some (take_profit, "take_profit")
    else if check_macd_cross_down df.macd df.signal idx then some (close, "macd_reverse")
    else if high ≥ df.bb_upper idx then some (df.bb_upper idx, "bb_touch")
    else none
  else
    if high ≥ stop_loss then some (stop_loss, "stop_loss")
    else if low ≤ take_profit then some (take_profit, "take_profit")
    else if check_macd_cross_up df.macd df.signal idx then some (close, "macd_reverse")
    else if low ≤ df.bb_lower idx then some (df.bb_lower idx, "bb_touch")
    else none

/-- `MacdEmaBbStrategy.update_trailing_stop`: one-way 1:1 flag, then stop
tightened toward the current mid band (`max` long / `min` short). -/
def update_trailing_stop (df : Df) (idx : Nat) (position_side : String)
    (entry_price current_sl : Rat) (reached_1to1 : Bool) : Rat × Bool :=
  let high := df.high idx
  let low := df.low idx
  let bb_mid := df.bb_mid idx
  if position_side = "long" then
    let risk := entry_price - current_sl
    let target_1to1 := entry_price + risk
    let new_reached := if !reached_1to1 && decide (high ≥ target_1to1) then true else reached_1to1
    let new_sl := if new_reached then max current_sl bb_mid else current_sl
    (new_sl, new_reached)
  else
    let risk := current_sl - entry_price
    let target_1to1 := entry_price - risk
    let new_reached := if !reached_1to1 && decide (low ≤ target_1to1) then true else reached_1to1
    let new_sl := if new_reached then min current_sl bb_mid else current_sl
    (new_sl, new_reached)

/-! ### backtest/engine.py -/

/-- `Trade` dataclass (src/backtest/engine.py). -/
structure Trade where
  entry_idx : Nat
  exit_idx : Nat
  entry_price : Rat
  exit_price : Rat
  side : String
  pnl_pct : Rat
  exit_reason : String
deriving DecidableEq

/-- The engine's transient position dictionary. -/
structure Position where
  entry_idx : Nat
  entry_price : Rat
  sl : Rat
  tp : Rat
  side : String
  reached_1to1 : Bool
deriving DecidableEq

/-- `BacktestResult` dataclass (src/backtest/engine.py). -/
structure BacktestResult where
  total_pnl_pct : Rat
  win_rate : Rat
  num_trades : Nat
  avg_pnl : Rat
  max_drawdown : Rat
  trades : List Trade
  equity_curve : List Rat
deriving DecidableEq

/-- Loop state of `BacktestEngine.run`: the accumulated trades and equity
curve, the live position (if any) and the strategy's transient memory. -/
structure EngineState where
  trades : List Trade
  equity_curve : List Rat
  current_equity : Rat
  position : Option Position
  strat : StratState

/-- `BacktestEngine` (strategy = `MacdEmaBbStrategy cfg`). -/
structure BacktestEngine where
  config : StrategyConfig
  use_trailing : Bool := true

/-- The trailing-stop refresh applied to the live position when
`use_trailing` is set (the `if self.use_trailing` block of the loop). -/
def applyTrailing (e : BacktestEngine) (df : Df) (i : Nat) (pos0 : Position) : Position :=
  if e.use_trailing then
    let r := update_trailing_stop df i pos0.side pos0.entry_price pos0.sl pos0.reached_1to1
    { pos0 with sl := r.1, reached_1to1 := r.2 }
  else pos0

/-- One iteration of the `for i in range(max_lookback, len(df))` loop in
`BacktestEngine.run`: while flat ask for a signal and open; while in a
position refresh the trailing stop (when enabled), then evaluate exits,
recording a `Trade` and an equity point on exit. -/
def stepBar (e : BacktestEngine) (df : Df) (st : EngineState) (i : Nat) : EngineState :=
  match st.position with
  | none =>
      let res := generate_signal e.config st.strat df i none
      match res.1 with
      | none => { st with strat := res.2 }
      | some s =>
          { st with
            position := some ⟨i, s.entry_price, s.stop_loss, s.take_profit, s.side, false⟩
            strat := res.2 }
  | some pos0 =>
      let pos := applyTrailing e df i pos0
      match check_exit_conditions df i pos.side pos.entry_price pos.sl pos.tp with
      | none => { st with position := some pos }
      | some pr =>
          let pnl_pct :=
            if pos.side = "long"
            then (pr.1 - pos.entry_price) / pos.entry_price * 100
            else (pos.entry_price - pr.1) / pos.entry_price * 100
          let new_equity := st.current_equity * (1 + pnl_pct / 100)
          { trades := st.trades ++ [⟨pos.entry_idx, i, pos.entry_price, pr.1, pos.side, pnl_pct, pr.2⟩]
            equity_curve := st.equity_curve ++ [new_equity]
            current_equity := new_equity
            position := none
            strat := st.strat }

/-- The engine loop from index `i` for `n` remaining bars. -/
def runBars (e : BacktestEngine) (df : Df) : EngineState → Nat → Nat → EngineState
  | st, _, 0 => st
  | st, i, n + 1 => runBars e df (stepBar e df st i) (i + 1) n

/-- `np.max` of a price list (the engine only applies it to nonempty lists). -/
def listMax : List Rat → Rat
  | [] => 0
  | x :: xs => xs.foldl max x

/-- Helper for `np.maximum.accumulate` carrying the running maximum. -/
def runningMaxFrom (m : Rat) : List Rat → List Rat
  | [] => []
  | y :: ys => max m y :: runningMaxFrom (max m y) ys

/-- `np.maximum.accumulate`. -/
def runningMax : List Rat → List Rat
  | [] => []
  | x :: xs => x :: runningMaxFrom x xs

/-- `BacktestEngine._calculate_stats`. -/
def calculate_stats (trades : List Trade) (equity_curve : List Rat) : BacktestResult :=
  if trades = [] then
    { total_pnl_pct := 0, win_rate := 0, num_trades := 0, avg_pnl := 0
      max_drawdown := 0, trades := [], equity_curve := [1] }
  else
    let pnls := trades.map Trade.pnl_pct
    let total_pnl := pnls.sum
    let win_rate := ((pnls.filter (fun p => decide (p > 0))).length : Rat) / (pnls.length : Rat) * 100
    let avg_pnl := pnls.sum / (pnls.length : Rat)
    let rmax := runningMax equity_curve
    let drawdowns := List.zipWith (fun r eq => (r - eq) / r * 100) rmax equity_curve
    { total_pnl_pct := total_pnl, win_rate := win_rate, num_trades := trades.length
      avg_pnl := avg_pnl, max_drawdown := listMax drawdowns
      trades := trades, equity_curve := equity_curve }

/-- `BacktestEngine.run(df, max_lookback)`. -/
def BacktestEngine.run (e : BacktestEngine) (df : Df) (max_lookback : Nat) : BacktestResult :=
  let init : EngineState := ⟨[], [1], 1, none, {}⟩
  let final := runBars e df init max_lookback (df.length - max_lookback)
  calculate_stats final.trades final.equity_curve

/-! ### backtest/optimizer.py -/

/-- `GridSearchOptimizer._calculate_score`: the chosen metric, minus a fixed
penalty of 1000 when the trade count is below `min_trades`. -/
def calculate_score (min_trades : Nat) (metric : BacktestResult → Rat)
    (result : BacktestResult) : Rat :=
  if result.num_trades < min_trades then metric result - 1000
  else metric result

/-- One iteration of the combination loop in `GridSearchOptimizer.run`:
a raised exception skips the combination; otherwise the scored result
replaces the best on a strictly greater score (`best_score` starts at
`-inf`, so the first successful combination always becomes best — modelled
by the `none` accumulator). -/
def optStep {P : Type} (min_trades : Nat) (metric : BacktestResult → Rat)
    (evalCombo : P → Except Unit BacktestResult)
    (best : Option (P × BacktestResult × Rat)) (c : P) :
    Option (P × BacktestResult × Rat) :=
  match evalCombo c with
  | .error _ => best
  | .ok r =>
      let s := calculate_score min_trades metric r
      match best with
      | none => some (c, r, s)
      | some b => if s > b.2.2 then some (c, r, s) else some b

/-- `GridSearchOptimizer.run`: fold the combination loop, then raise
`ValueError("No valid results found during optimization")` when no
combination produced a best result; otherwise return the best parameters
and their backtest result.  Data fetch + indicator pipeline + engine run
for one combination are abstracted as `evalCombo` (an exception anywhere in
the `try` block is its `error` case). -/
def optimizer_run {P : Type} (min_trades : Nat) (metric : BacktestResult → Rat)
    (evalCombo : P → Except Unit BacktestResult) (combos : List P) :
    Except String (P × BacktestResult) :=
  match combos.foldl (optStep min_trades metric evalCombo) none with
  | none => .error "No valid results found during optimization"
  | some b => .ok (b.1, b.2.1)

/-- `true` iff an `Except` is an `ok` value. -/
def exceptOk {ε α : Type} : Except ε α → Bool
  | .ok _ => true
  | .error _ => false

/-! ### Spec-side pattern definitions (for the C8 comparison)

`C8` describes the local-extremum rule in words; two reference definitions
follow those words so they can be compared against `argrelextrema`'s clip
semantics. -/

/-- The extremum rule exactly as the claim states it: `cmp` holds against
every EXISTING point within `order` positions on both sides (out-of-range
neighbours are simply absent, so boundary points can qualify vacuously). -/
def claimedExtremaAt (cmp : Rat → Rat → Bool) (p : Nat → Rat) (n order i : Nat) : Bool :=
  (List.range order).all fun k =>
    (if i + (k + 1) < n then cmp (p i) (p (i + (k + 1))) else true) &&
    (if k + 1 ≤ i then cmp (p i) (p (i - (k + 1))) else true)

/-- The amended extremum rule: additionally the point must be interior
(neither the first nor the last point of the prefix) — this is what the
clip semantics of `argrelextrema` actually computes. -/
def amendedExtremaAt (cmp : Rat → Rat → Bool) (p : Nat → Rat) (n order i : Nat) : Bool :=
  decide (0 < i) && decide (i + 1 < n) && claimedExtremaAt cmp p n order i

/-- Bullish QML detection as literally claimed (vacuous-boundary minima). -/
def detect_qml_bull_claimed (low : Nat → Rat) (idx order recency : Nat) : Option Rat :=
  qmlFromMins qlt low idx recency
    ((List.range (idx + 1)).filter (claimedExtremaAt qlt low (idx + 1) order))

/-- Bullish QML detection over the amended (interior-only) minima. -/
def detect_qml_bull_amended (low : Nat → Rat) (idx order recency : Nat) : Option Rat :=
  qmlFromMins qlt low idx recency
    ((List.range (idx + 1)).filter (amendedExtremaAt qlt low (idx + 1) order))

/-- Bearish QML detection over the amended (interior-only) maxima. -/
def detect_qml_bear_amended (high : Nat → Rat) (idx order recency : Nat) : Option Rat :=
  qmlFromMins qgt high idx recency
    ((List.range (idx + 1)).filter (amendedExtremaAt qgt high (idx + 1) order))


/-! ### Derived iteration for the trailing stop (C3) -/

/-- The successive `(sl, reached_1to1)` states recorded while the engine
repeatedly calls `update_trailing_stop` on consecutive bars of one open
position (initial state included). -/
def trailStates (df : Df) (side : String) (entry : Rat) :
    Rat × Bool → List Nat → List (Rat × Bool)
  | s, [] => [s]
  | s, i :: is =>
      s :: trailStates df side entry (update_trailing_stop df i side entry s.1 s.2) is

/-! ### Invariants for the engine loop (C2, C10) -/

/-- The recorded trades close strictly after they open, before `next`, and
occupy pairwise disjoint, ordered index intervals. -/
def TradesOk (trades : List Trade) (next : Nat) : Prop :=
  (∀ t ∈ trades, t.entry_idx < t.exit_idx ∧ t.exit_idx < next) ∧
  List.Pairwise (fun a b => a.exit_idx < b.entry_idx) trades

/-- Any live position opened strictly before `next`, and after every
recorded trade closed. -/
def PosOk (st : EngineState) (next : Nat) : Prop :=
  ∀ p, st.position = some p → p.entry_idx < next ∧ ∀ t ∈ st.trades, t.exit_idx < p.entry_idx

/-! ### Concrete inputs used by the counterexamples and witnesses -/

/-- Lows whose first point undercuts a later structure: index 0 is a local
minimum under the claimed (vacuous-boundary) rule but never under
`argrelextrema`'s clip rule. -/
def exLow : Nat → Rat := fun i => [20, 30, 5, 30, 10, 30, 30].getD i 0

/-- Lows with a completed bullish QML structure (sweep low 10 at index 3)
followed by a collapse to 1 at index 7 that forms no new local minimum. -/
def c4low : Nat → Rat := fun i => [50, 20, 50, 10, 50, 15, 50, 1].getD i 0

/-- Enriched frame where a long entry fires at index 7 with the close (1)
far below the remembered sweep level (10). -/
def dfC4 : Df :=
  { high := fun _ => 0
    low := c4low
    close := fun i => if i = 7 then 1 else 50
    volume := fun _ => 0
    ema := fun _ => 0
    macd := fun i => if i = 7 then 1 else 0
    signal := fun _ => 0
    bb_upper := fun _ => 0
    bb_mid := fun _ => 0
    bb_lower := fun _ => 0
    bb_width := fun _ => 2
    atr := fun _ => 1
    vol_avg := fun _ => 0
    length := 8 }

/-- Configuration with QML gating and extreme-stop mode enabled. -/
def cfgC4 : StrategyConfig :=
  { qml_order := 1, use_qml := true, use_qml_extreme_sl := true }

/-- The signal `generate_signal` produces on `dfC4` at index 7:
stop `10 - 1×1.5 = 17/2` above the entry 1, so risk and reward are negative. -/
def sigC4 : Signal := ⟨"long", 1, 17/2, -14⟩

/-- Enriched frame with an upward MACD cross at index 1, close 10 above the
EMA 5, wide bands and ATR 2. -/
def dfW : Df :=
  { high := fun _ => 10
    low := fun _ => 10
    close := fun _ => 10
    volume := fun _ => 0
    ema := fun _ => 5
    macd := fun i => if i = 1 then 1 else 0
    signal := fun _ => 0
    bb_upper := fun _ => 100
    bb_mid := fun _ => 10
    bb_lower := fun _ => 0
    bb_width := fun _ => 2
    atr := fun _ => 2
    vol_avg := fun _ => 0
    length := 2 }

/-- All-default configuration (QML gating and extreme-stop mode off). -/
def cfgW : StrategyConfig := {}

/-- The long signal produced on `dfW` at index 1: entry 10, stop
`10 - 2×1.5 = 7`, target `10 + 3×2 = 16`. -/
def sigW : Signal := ⟨"long", 10, 7, 16⟩

/-- Bar for the Scenario C tie: low 94 touches the stop 95 and high 112
touches the target 110 on the same bar. -/
def dfC1 : Df :=
  { high := fun _ => 112
    low := fun _ => 94
    close := fun _ => 100
    volume := fun _ => 0
    ema := fun _ => 0
    macd := fun _ => 0
    signal := fun _ => 0
    bb_upper := fun _ => 1000
    bb_mid := fun _ => 100
    bb_lower := fun _ => 0
    bb_width := fun _ => 2
    atr := fun _ => 1
    vol_avg := fun _ => 0
    length := 1 }

/-- Frame in a squeeze: band width 0 below any positive threshold. -/
def dfC7 : Df :=
  { high := fun _ => 10
    low := fun _ => 10
    close := fun _ => 10
    volume := fun _ => 100
    ema := fun _ => 5
    macd := fun i => if i = 1 then 1 else 0
    signal := fun _ => 0
    bb_upper := fun _ => 10
    bb_mid := fun _ => 10
    bb_lower := fun _ => 10
    bb_width := fun _ => 0
    atr := fun _ => 2
    vol_avg := fun _ => 0
    length := 2 }

/-- Empty frame: the engine loop body never runs. -/
def dfEmpty : Df :=
  { high := fun _ => 0, low := fun _ => 0, close := fun _ => 0
    volume := fun _ => 0, ema := fun _ => 0, macd := fun _ => 0
    signal := fun _ => 0, bb_upper := fun _ => 0, bb_mid := fun _ => 0
    bb_lower := fun _ => 0, bb_width := fun _ => 0, atr := fun _ => 0
    vol_avg := fun _ => 0, length := 0 }

/-- Engine over the default configuration. -/
def eW : BacktestEngine := { config := {} }

/-- Qualifying combination's backtest: 10 trades, total PNL 0. -/
def rQual : BacktestResult := ⟨0, 0, 10, 0, 0, [], [1]⟩

/-- Rejected combination's backtest (mild): 2 trades, total PNL 500. -/
def rRejMild : BacktestResult := ⟨500, 0, 2, 0, 0, [], [1]⟩

/-- Rejected combination's backtest (extreme): 5 trades, total PNL 2000 —
more than the fixed 1000 penalty above the qualifying combination. -/
def rRejBig : BacktestResult := ⟨2000, 0, 5, 0, 0, [], [1]⟩

/-- Qualifying combination's backtest for the C5 counterexample: 20 trades,
total PNL 0. -/
def rQualCx : BacktestResult := ⟨0, 0, 20, 0, 0, [], [1]⟩

/-- Two-combination evaluation where only combination 0 reaches the trade
threshold and the rejected one's PNL edge is below the penalty. -/
def evalMild : Nat → Except Unit BacktestResult :=
  fun c => if c = 0 then .ok rQual else .ok rRejMild

/-- Two-combination evaluation where only combination 0 reaches the trade
threshold but the rejected one's PNL edge exceeds the penalty. -/
def evalBig : Nat → Except Unit BacktestResult :=
  fun c => if c = 0 then .ok rQualCx else .ok rRejBig

/-- Backtest with zero trades (below any positive threshold). -/
def rZero : BacktestResult := ⟨0, 0, 0, 0, 0, [], [1]⟩

/-- Single-combination evaluation that completes but records zero trades. -/
def evalZero : Nat → Except Unit BacktestResult := fun _ => .ok rZero
lemma relExtremaAt_eq_amended (cmp : Rat → Rat → Bool) (hirr : ∀ x, cmp x x = false)
    (p : Nat → Rat) (n order i : Nat) (horder : 1 ≤ order) (hi : i < n) :
    relExtremaAt cmp p n order i = amendedExtremaAt cmp p n order i := by
  rw [Bool.eq_iff_iff]
  simp only [relExtremaAt, amendedExtremaAt, claimedExtremaAt, Bool.and_eq_true,
    List.all_eq_true, List.mem_range, decide_eq_true_eq]
  constructor
  · intro h
    have h0 := h 0 horder
    have hi0 : 0 < i := by
      by_contra hc
      have hz : i = 0 := by omega
      have := h0.2
      rw [hz] at this
      simp only [Nat.zero_sub] at this
      rw [hirr (p 0)] at this
      exact Bool.false_ne_true this
    have hin : i + 1 < n := by
      by_contra hc
      have hlast : min (i + (0 + 1)) (n - 1) = i := by omega
      have := h0.1
      rw [hlast, hirr (p i)] at this
      exact Bool.false_ne_true this
    refine ⟨⟨hi0, hin⟩, ?_⟩
    intro k hk
    obtain ⟨hr, hl⟩ := h k hk
    constructor
    · by_cases hc : i + (k + 1) < n
      · have hmin : min (i + (k + 1)) (n - 1) = i + (k + 1) := by omega
        rw [hmin] at hr
        simp [hc, hr]
      · simp [hc]
    · by_cases hc : k + 1 ≤ i
      · simp [hc, hl]
      · simp [hc]
  · rintro ⟨⟨hi0, hin⟩, hall⟩ k hk
    constructor
    · by_cases hc : i + (k + 1) < n
      · have hmin : min (i + (k + 1)) (n - 1) = i + (k + 1) := by omega
        have := (hall k hk).1
        rw [if_pos hc] at this
        rw [hmin]
        exact this
      · have hmin : min (i + (k + 1)) (n - 1) = n - 1 := by omega
        have hj : n - i - 2 < order := by omega
        have hjn : i + (n - i - 2 + 1) < n := by omega
        have := (hall (n - i - 2) hj).1
        rw [if_pos hjn] at this
        have harith : i + (n - i - 2 + 1) = n - 1 := by omega
        rw [harith] at this
        rw [hmin]
        exact this
    · by_cases hc : k + 1 ≤ i
      · have := (hall k hk).2
        rw [if_pos hc] at this
        exact this
      · have hj : i - 1 < order := by omega
        have hji : i - 1 + 1 ≤ i := by omega
        have := (hall (i - 1) hj).2
        rw [if_pos hji] at this
        have harith : i - (i - 1 + 1) = 0 := by omega
        have harith2 : i - (k + 1) = 0 := by omega
        rw [harith] at this
        rw [harith2]
        exact this

lemma argrelextrema_eq_amended (cmp : Rat → Rat → Bool) (hirr : ∀ x, cmp x x = false)
    (p : Nat → Rat) (n order : Nat) (horder : 1 ≤ order) :
    argrelextrema cmp p n order = (List.range n).filter (amendedExtremaAt cmp p n order) := by
  unfold argrelextrema
  apply List.filter_congr
  intro i hi
  exact relExtremaAt_eq_amended cmp hirr p n order i horder (List.mem_range.mp hi)

/-! ### C1 — exit-condition priority -/

/-- C1: for an open long position `check_exit_conditions` evaluates, in this
fixed order, stop-loss (bar low ≤ stop, exit at the stop), take-profit
(bar high ≥ target, exit at the target), opposite MACD cross (exit at the
close), upper-band touch (exit at the band), first match winning, and
reports no exit when none fires; in particular a bar touching both stop and
target reports `stop_loss` at the stop price, never `take_profit`.  The
short side is mirrored. -/
theorem c1_exit_priority_order (df : Df) (idx : Nat) (entry sl tp : Rat) :
    ((df.low idx ≤ sl →
        check_exit_conditions df idx "long" entry sl tp = some (sl, "stop_loss")) ∧
     (¬ df.low idx ≤ sl → tp ≤ df.high idx →
        check_exit_conditions df idx "long" entry sl tp = some (tp, "take_profit")) ∧
     (¬ df.low idx ≤ sl → ¬ tp ≤ df.high idx →
        check_macd_cross_down df.macd df.signal idx = true →
        check_exit_conditions df idx "long" entry sl tp = some (df.close idx, "macd_reverse")) ∧
     (¬ df.low idx ≤ sl → ¬ tp ≤ df.high idx →
        check_macd_cross_down df.macd df.signal idx = false →
        df.bb_upper idx ≤ df.high idx →
        check_exit_conditions df idx "long" entry sl tp = some (df.bb_upper idx, "bb_touch")) ∧
     (¬ df.low idx ≤ sl → ¬ tp ≤ df.high idx →
        check_macd_cross_down df.macd df.signal idx = false →
        ¬ df.bb_upper idx ≤ df.high idx →
        check_exit_conditions df idx "long" entry sl tp = none) ∧
     (df.low idx ≤ sl → tp ≤ df.high idx →
        check_exit_conditions df idx "long" entry sl tp = some (sl, "stop_loss"))) ∧
    ((sl ≤ df.high idx →
        check_exit_conditions df idx "short" entry sl tp = some (sl, "stop_loss")) ∧
     (¬ sl ≤ df.high idx → df.low idx ≤ tp →
        check_exit_conditions df idx "short" entry sl tp = some (tp, "take_profit")) ∧
     (¬ sl ≤ df.high idx → ¬ df.low idx ≤ tp →
        check_macd_cross_up df.macd df.signal idx = true →
        check_exit_conditions df idx "short" entry sl tp = some (df.close idx, "macd_reverse")) ∧
     (¬ sl ≤ df.high idx → ¬ df.low idx ≤ tp →
        check_macd_cross_up df.macd df.signal idx = false →
        df.low idx ≤ df.bb_lower idx →
        check_exit_conditions df idx "short" entry sl tp = some (df.bb_lower idx, "bb_touch")) ∧
     (¬ sl ≤ df.high idx → ¬ df.low idx ≤ tp →
        check_macd_cross_up df.macd df.signal idx = false →
        ¬ df.low idx ≤ df.bb_lower idx →
        check_exit_conditions df idx "short" entry sl tp = none) ∧
     (sl ≤ df.high idx → df.low idx ≤ tp →
        check_exit_conditions df idx "short" entry sl tp = some (sl, "stop_loss"))) := by
  refine ⟨⟨?_, ?_, ?_, ?_, ?_, ?_⟩, ?_, ?_, ?_, ?_, ?_, ?_⟩ <;> intros <;>
    simp_all [check_exit_conditions] <;> split_ifs <;> first | rfl | linarith

/-- C1 witness (Scenario C): stop 95 and target 110 both touched on the bar
with low 94 / high 112 — the reported exit is `stop_loss` at 95. -/
theorem c1_scenario_c_witness :
    dfC1.low 0 ≤ 95 ∧ (110 : Rat) ≤ dfC1.high 0 ∧
    check_exit_conditions dfC1 0 "long" 100 95 110 = some (95, "stop_loss") :=
  ⟨by decide, by decide,
   (c1_exit_priority_order dfC1 0 100 95 110).1.2.2.2.2.2 (by decide) (by decide)⟩

/-! ### C8 — QML pattern detection -/

/-- C8 counterexample: on `exLow` up to index 6 with `order = 1`, the
claimed local-minimum rule ("strictly lower than every point within `order`
positions on both sides") admits the boundary point 0, yielding minima
(0, 2, 4) and a detected pattern at sweep level 5, but `detect_qml_bull`
(via `argrelextrema`'s clip semantics, which never flags boundary points)
sees only two minima and returns nothing. -/
theorem c8_boundary_counterexample :
    detect_qml_bull exLow 6 1 20 = none ∧
    detect_qml_bull_claimed exLow 6 1 20 = some 5 := by
  constructor <;> decide

/-- C8 amended: `detect_qml_bull` behaves as claimed once "local minimum"
additionally requires the point to be neither the first nor the last point
of the prefix (boundary points are never extrema under `argrelextrema`'s
clip mode); `detect_qml_bear` is the mirror over highs. -/
theorem c8_qml_amended (low high : Nat → Rat) (idx order recency : Nat)
    (horder : 1 ≤ order) :
    detect_qml_bull low idx order recency = detect_qml_bull_amended low idx order recency ∧
    detect_qml_bear high idx order recency = detect_qml_bear_amended high idx order recency := by
  constructor
  · unfold detect_qml_bull detect_qml_bull_amended
    rw [argrelextrema_eq_amended qlt (fun x => by simp [qlt]) low (idx + 1) order horder]
  · unfold detect_qml_bear detect_qml_bear_amended
    rw [argrelextrema_eq_amended qgt (fun x => by simp [qgt]) high (idx + 1) order horder]

/-- C8 witness: the amended agreement evaluated at the concrete input of the
counterexample. -/
theorem c8_qml_amended_witness :
    1 ≤ 1 ∧ detect_qml_bull exLow 6 1 20 = detect_qml_bull_amended exLow 6 1 20 :=
  ⟨by decide, (c8_qml_amended exLow exLow 6 1 20 (by decide)).1⟩

/-! ### C3 — trailing-stop monotonicity -/

lemma trailStates_head (df : Df) (side : String) (entry : Rat) (s : Rat × Bool)
    (l : List Nat) : (trailStates df side entry s l).head? = some s := by
  cases l <;> rfl

lemma update_trailing_stop_long_eq (df : Df) (idx : Nat) (entry sl : Rat)
    (reached : Bool) :
    (update_trailing_stop df idx "long" entry sl reached).1 =
      (if (update_trailing_stop df idx "long" entry sl reached).2 = true
       then max sl (df.bb_mid idx) else sl) := by
  simp [update_trailing_stop]

lemma update_trailing_stop_short_eq (df : Df) (idx : Nat) (entry sl : Rat)
    (reached : Bool) :
    (update_trailing_stop df idx "short" entry sl reached).1 =
      (if (update_trailing_stop df idx "short" entry sl reached).2 = true
       then min sl (df.bb_mid idx) else sl) := by
  simp [update_trailing_stop]

lemma update_trailing_stop_long_mono (df : Df) (idx : Nat) (entry sl : Rat)
    (reached : Bool) : sl ≤ (update_trailing_stop df idx "long" entry sl reached).1 := by
  rw [update_trailing_stop_long_eq]
  split
  · exact le_max_left _ _
  · exact le_refl sl

lemma update_trailing_stop_short_mono (df : Df) (idx : Nat) (entry sl : Rat)
    (reached : Bool) : (update_trailing_stop df idx "short" entry sl reached).1 ≤ sl := by
  rw [update_trailing_stop_short_eq]
  split
  · exact min_le_left _ _
  · exact le_refl sl

lemma trailStates_long_chain (df : Df) (entry : Rat) :
    ∀ (l : List Nat) (s : Rat × Bool),
      List.Chain' (· ≤ ·) ((trailStates df "long" entry s l).map Prod.fst)
  | [], s => by simp [trailStates]
  | i :: is, s => by
      rw [trailStates, List.map_cons]
      refine (trailStates_long_chain df entry is _).cons' ?_
      intro y hy
      rw [List.head?_map, trailStates_head] at hy
      simp only [Option.map_some', Option.mem_def, Option.some_inj] at hy
      subst hy
      exact update_trailing_stop_long_mono df i entry s.1 s.2

lemma trailStates_short_chain (df : Df) (entry : Rat) :
    ∀ (l : List Nat) (s : Rat × Bool),
      List.Chain' (· ≥ ·) ((trailStates df "short" entry s l).map Prod.fst)
  | [], s => by simp [trailStates]
  | i :: is, s => by
      rw [trailStates, List.map_cons]
      refine (trailStates_short_chain df entry is _).cons' ?_
      intro y hy
      rw [List.head?_map, trailStates_head] at hy
      simp only [Option.map_some', Option.mem_def, Option.some_inj] at hy
      subst hy
      exact update_trailing_stop_short_mono df i entry s.1 s.2

/-- C3: `update_trailing_stop` never clears the 1:1 flag (passing `true`
returns `true` for any side) and never loosens the stop: for a long
position the returned stop equals `max(current stop, mid band)` once the
returned flag is set and the unchanged stop otherwise, hence is `≥` the
passed stop; short is mirrored with `min` and `≤`.  Consequently the stop
sequence recorded over consecutive bars of one position is non-decreasing
for long and non-increasing for short. -/
theorem c3_trailing_stop_monotone (df : Df) (idx : Nat) (side : String)
    (entry sl : Rat) (reached : Bool) (s0 : Rat × Bool) (idxs : List Nat) :
    (update_trailing_stop df idx side entry sl true).2 = true ∧
    (update_trailing_stop df idx "long" entry sl reached).1 =
      (if (update_trailing_stop df idx "long" entry sl reached).2 = true
       then max sl (df.bb_mid idx) else sl) ∧
    sl ≤ (update_trailing_stop df idx "long" entry sl reached).1 ∧
    (update_trailing_stop df idx "short" entry sl reached).1 =
      (if (update_trailing_stop df idx "short" entry sl reached).2 = true
       then min sl (df.bb_mid idx) else sl) ∧
    (update_trailing_stop df idx "short" entry sl reached).1 ≤ sl ∧
    List.Chain' (· ≤ ·) ((trailStates df "long" entry s0 idxs).map Prod.fst) ∧
    List.Chain' (· ≥ ·) ((trailStates df "short" entry s0 idxs).map Prod.fst) := by
  refine ⟨?_, update_trailing_stop_long_eq df idx entry sl reached,
    update_trailing_stop_long_mono df idx entry sl reached,
    update_trailing_stop_short_eq df idx entry sl reached,
    update_trailing_stop_short_mono df idx entry sl reached,
    trailStates_long_chain df entry idxs s0,
    trailStates_short_chain df entry idxs s0⟩
  simp only [update_trailing_stop]
  split <;> rfl

/-! ### C7 — squeeze filter always active -/

/-- C7: the squeeze filter is applied on every entry evaluation regardless
of any flag — whenever the band width is below `squeeze_threshold`,
`check_filters` is false and `generate_signal` yields no signal — while
with `use_vol_filter = false` the filter outcome is exactly the squeeze
comparison (the volume comparison is not consulted). -/
theorem c7_squeeze_always_active (cfg : StrategyConfig) (st : StratState) (df : Df)
    (idx : Nat) (cp : Option Rat) :
    (df.bb_width idx < cfg.squeeze_threshold →
       check_filters cfg df idx = false ∧ (generate_signal cfg st df idx cp).1 = none) ∧
    (cfg.use_vol_filter = false →
       check_filters cfg df idx = decide (cfg.squeeze_threshold ≤ df.bb_width idx)) := by
  constructor
  · intro h
    have hf : check_filters cfg df idx = false := by
      simp [check_filters, h]
    exact ⟨hf, by simp [generate_signal, hf]⟩
  · intro hv
    by_cases h : df.bb_width idx < cfg.squeeze_threshold
    · simp [check_filters, hv, h, not_le.mpr h]
    · simp [check_filters, hv, h, not_lt.mp h]

/-- C7 witness: with the volume filter off, a zero band width below the
threshold 1 blocks the filter and the signal. -/
theorem c7_squeeze_witness :
    dfC7.bb_width 1 < cfgW.squeeze_threshold ∧
    (check_filters cfgW dfC7 1 = false ∧ (generate_signal cfgW {} dfC7 1 none).1 = none) :=
  ⟨by decide, (c7_squeeze_always_active cfgW {} dfC7 1 none).1 (by decide)⟩

/-! ### C9 — Scenario B entry formula -/

/-- C9: with QML gating and extreme-stop mode disabled, an upward MACD cross
at `k` (was ≤ at `k-1`, is > at `k`) with close above the EMA and passing
filters yields a long signal with entry `close[k]`, stop
`close[k] - ATR[k]×atr_sl_mult` and target
`entry + (entry - stop)×rr_ratio`. -/
theorem c9_scenario_b (cfg : StrategyConfig) (st : StratState) (df : Df) (k : Nat)
    (hq : cfg.use_qml = false) (he : cfg.use_qml_extreme_sl = false) (hk : 1 ≤ k)
    (hprev : df.macd (k - 1) ≤ df.signal (k - 1)) (hcross : df.signal k < df.macd k)
    (htrend : df.ema k < df.close k) (hf : check_filters cfg df k = true) :
    (generate_signal cfg st df k none).1 =
      some ⟨"long", df.close k, df.close k - df.atr k * cfg.atr_sl_mult,
            df.close k + (df.close k - (df.close k - df.atr k * cfg.atr_sl_mult)) *
              cfg.rr_ratio⟩ := by
  have hnk : ¬ k < 1 := by omega
  have hcu : check_macd_cross_up df.macd df.signal k = true := by
    simp [check_macd_cross_up, hnk, hcross, hprev]
  have hlong : check_long_signal cfg st df k = (true, st) := by
    simp [check_long_signal, hcu, check_price_above_ema, htrend, hq]
  simp [generate_signal, hf, hlong, calculate_sl_tp, he]

/-- C9 witness: the concrete cross at index 1 of `dfW` produces the long
signal `sigW = ⟨"long", 10, 7, 16⟩`. -/
theorem c9_scenario_b_witness : (generate_signal cfgW {} dfW 1 none).1 = some sigW :=
  (c9_scenario_b cfgW {} dfW 1 rfl rfl (by decide) (by decide) (by decide) (by decide)
    (by decide)).trans (by decide)

/-! ### C4 — risk/reward sign -/

/-- C4 counterexample: with QML gating and extreme-stop mode enabled, on
`dfC4` at index 7 the remembered sweep level 10 sits far above the entry 1,
so `generate_signal` produces a long signal whose risk (−15/2) and reward
(−15) are negative, contradicting the claimed unconditional
non-negativity. -/
theorem c4_negative_risk_counterexample :
    (generate_signal cfgC4 {} dfC4 7 none).1 = some sigC4 ∧
    sigC4.risk < 0 ∧ sigC4.reward < 0 := by
  refine ⟨by decide, by decide, by decide⟩

/-- C4 amended: every signal produced by `generate_signal` with extreme-stop
mode disabled (so the stop comes from `entry ± ATR×mult`) has non-negative
risk and reward, given non-negative ATR, stop multiplier and R:R ratio;
with extreme-stop mode enabled and a remembered sweep level the sign is not
guaranteed. -/
theorem c4_risk_reward_nonneg (cfg : StrategyConfig) (st : StratState) (df : Df)
    (idx : Nat) (cp : Option Rat) (sig : Signal)
    (he : cfg.use_qml_extreme_sl = false) (hatr : 0 ≤ df.atr idx)
    (hmult : 0 ≤ cfg.atr_sl_mult) (hrr : 0 ≤ cfg.rr_ratio)
    (hsig : (generate_signal cfg st df idx cp).1 = some sig) :
    0 ≤ sig.risk ∧ 0 ≤ sig.reward := by
  have hoff : 0 ≤ df.atr idx * cfg.atr_sl_mult := mul_nonneg hatr hmult
  have hoffr : 0 ≤ df.atr idx * cfg.atr_sl_mult * cfg.rr_ratio := mul_nonneg hoff hrr
  unfold generate_signal at hsig
  by_cases hf : check_filters cfg df idx = true
  · rw [hf] at hsig
    simp only [Bool.not_true, Bool.false_eq_true, if_false] at hsig
    cases hl : (check_long_signal cfg st df idx).1 with
    | true =>
        rw [hl] at hsig
        simp only [calculate_sl_tp, he, if_true, if_pos rfl] at hsig
        rw [Option.some_inj] at hsig
        subst hsig
        constructor
        · simp [Signal.risk]
          linarith
        · simp [Signal.reward]
          linarith [hoffr]
    | false =>
        rw [hl] at hsig
        simp only [Bool.false_eq_true, if_false] at hsig
        cases hs : (check_short_signal cfg (check_long_signal cfg st df idx).2 df idx).1 with
        | true =>
            rw [hs] at hsig
            simp only [calculate_sl_tp, he, if_true] at hsig
            rw [Option.some_inj] at hsig
            subst hsig
            constructor
            · simp [Signal.risk]
              linarith
            · simp [Signal.reward]
              linarith [hoffr]
        | false =>
            rw [hs] at hsig
            simp at hsig
  · simp only [Bool.not_eq_true] at hf
    rw [hf] at hsig
    simp at hsig

/-- C4 witness: the default-configuration signal on `dfW` has risk 3 ≥ 0 and
reward 6 ≥ 0. -/
theorem c4_risk_reward_nonneg_witness : 0 ≤ sigW.risk ∧ 0 ≤ sigW.reward :=
  c4_risk_reward_nonneg cfgW {} dfW 1 none sigW rfl (by decide) (by decide) (by decide)
    (by decide)

/-! ### C2 — equity-curve shape -/

lemma stepBar_c2 (e : BacktestEngine) (df : Df) (st : EngineState) (i : Nat)
    (hlen : st.equity_curve.length = st.trades.length + 1)
    (hhead : st.equity_curve.head? = some 1) :
    (stepBar e df st i).equity_curve.length = (stepBar e df st i).trades.length + 1 ∧
    (stepBar e df st i).equity_curve.head? = some 1 := by
  cases hpos : st.position with
  | none =>
      cases hsig : (generate_signal e.config st.strat df i none).1 with
      | none => simp only [stepBar, hpos, hsig]; exact ⟨hlen, hhead⟩
      | some s => simp only [stepBar, hpos, hsig]; exact ⟨hlen, hhead⟩
  | some pos0 =>
      cases hexit : check_exit_conditions df i (applyTrailing e df i pos0).side
          (applyTrailing e df i pos0).entry_price (applyTrailing e df i pos0).sl
          (applyTrailing e df i pos0).tp with
      | none => simp only [stepBar, hpos, hexit]; exact ⟨hlen, hhead⟩
      | some pr =>
          simp only [stepBar, hpos, hexit]
          constructor
          · simp [List.length_append, hlen]
          · cases hcu : st.equity_curve with
            | nil => rw [hcu] at hhead; simp at hhead
            | cons a tl =>
                rw [hcu] at hhead
                simp only [List.head?] at hhead
                simp [hhead]

lemma runBars_c2 (e : BacktestEngine) (df : Df) :
    ∀ (n i : Nat) (st : EngineState),
      st.equity_curve.length = st.trades.length + 1 →
      st.equity_curve.head? = some 1 →
      (runBars e df st i n).equity_curve.length = (runBars e df st i n).trades.length + 1 ∧
      (runBars e df st i n).equity_curve.head? = some 1
  | 0, _, _, h1, h2 => ⟨h1, h2⟩
  | n + 1, i, st, h1, h2 => by
      rw [runBars]
      obtain ⟨g1, g2⟩ := stepBar_c2 e df st i h1 h2
      exact runBars_c2 e df n (i + 1) _ g1 g2

/-- C2: every completed `BacktestEngine.run` returns a result whose equity
curve has exactly one more point than the trade list and starts at 1; a run
recording zero trades returns the single-element curve `[1]`. -/
theorem c2_equity_curve_invariant (e : BacktestEngine) (df : Df) (max_lookback : Nat) :
    (e.run df max_lookback).equity_curve.length = (e.run df max_lookback).trades.length + 1 ∧
    (e.run df max_lookback).equity_curve.head? = some 1 ∧
    ((e.run df max_lookback).trades = [] → (e.run df max_lookback).equity_curve = [1]) := by
  unfold BacktestEngine.run
  obtain ⟨h1, h2⟩ := runBars_c2 e df (df.length - max_lookback) max_lookback
    ⟨[], [1], 1, none, {}⟩ rfl rfl
  by_cases ht :
      (runBars e df ⟨[], [1], 1, none, {}⟩ max_lookback (df.length - max_lookback)).trades = []
  · simp [calculate_stats, ht]
  · simp only [calculate_stats, if_neg ht]
    exact ⟨h1, h2, fun hcon => absurd hcon ht⟩

/-- C2 witness: a zero-length frame produces zero trades and the single
initial equity point. -/
theorem c2_equity_curve_witness :
    (eW.run dfEmpty 0).trades = [] ∧ (eW.run dfEmpty 0).equity_curve = [1] :=
  ⟨rfl, (c2_equity_curve_invariant eW dfEmpty 0).2.2 rfl⟩

/-! ### C10 — trade-interval disjointness -/

lemma applyTrailing_entry_idx (e : BacktestEngine) (df : Df) (i : Nat) (p : Position) :
    (applyTrailing e df i p).entry_idx = p.entry_idx := by
  unfold applyTrailing
  split <;> rfl

lemma stepBar_c10 (e : BacktestEngine) (df : Df) (st : EngineState) (i : Nat)
    (h1 : TradesOk st.trades i) (h2 : PosOk st i) :
    TradesOk (stepBar e df st i).trades (i + 1) ∧ PosOk (stepBar e df st i) (i + 1) := by
  obtain ⟨hb, hp⟩ := h1
  cases hpos : st.position with
  | none =>
      cases hsig : (generate_signal e.config st.strat df i none).1 with
      | none =>
          simp only [stepBar, hpos, hsig]
          refine ⟨⟨fun t ht => ?_, hp⟩, fun p hpeq => ?_⟩
          · obtain ⟨ha, hbnd⟩ := hb t ht
            exact ⟨ha, by omega⟩
          · simp at hpeq
      | some s =>
          simp only [stepBar, hpos, hsig]
          refine ⟨⟨fun t ht => ?_, hp⟩, fun p hpeq => ?_⟩
          · obtain ⟨ha, hbnd⟩ := hb t ht
            exact ⟨ha, by omega⟩
          · simp only [Option.some_inj] at hpeq
            subst hpeq
            exact ⟨Nat.lt_succ_self i, fun t ht => (hb t ht).2⟩
  | some pos0 =>
      have hpe := h2 pos0 hpos
      cases hexit : check_exit_conditions df i (applyTrailing e df i pos0).side
          (applyTrailing e df i pos0).entry_price (applyTrailing e df i pos0).sl
          (applyTrailing e df i pos0).tp with
      | none =>
          simp only [stepBar, hpos, hexit]
          refine ⟨⟨fun t ht => ?_, hp⟩, fun p hpeq => ?_⟩
          · obtain ⟨ha, hbnd⟩ := hb t ht
            exact ⟨ha, by omega⟩
          · simp only [Option.some_inj] at hpeq
            subst hpeq
            rw [applyTrailing_entry_idx]
            exact ⟨by omega, fun t ht => (hpe.2 t ht)⟩
      | some pr =>
          simp only [stepBar, hpos, hexit]
          refine ⟨⟨fun t ht => ?_, ?_⟩, fun p hpeq => ?_⟩
          · rw [List.mem_append] at ht
            rcases ht with ht | ht
            · obtain ⟨ha, hbnd⟩ := hb t ht
              exact ⟨ha, by omega⟩
            · rw [List.mem_singleton] at ht
              subst ht
              simp only [applyTrailing_entry_idx]
              exact ⟨by omega, by omega⟩
          · rw [List.pairwise_append]
            refine ⟨hp, List.pairwise_singleton _ _, fun a ha b hbmem => ?_⟩
            rw [List.mem_singleton] at hbmem
            subst hbmem
            simp only [applyTrailing_entry_idx]
            exact hpe.2 a ha
          · simp at hpeq

lemma runBars_c10 (e : BacktestEngine) (df : Df) :
    ∀ (n i : Nat) (st : EngineState),
      TradesOk st.trades i → PosOk st i →
      TradesOk (runBars e df st i n).trades (i + n)
  | 0, i, st, h1, _ => by rw [runBars]; simpa using h1
  | n + 1, i, st, h1, h2 => by
      rw [runBars]
      obtain ⟨g1, g2⟩ := stepBar_c10 e df st i h1 h2
      have := runBars_c10 e df n (i + 1) _ g1 g2
      simpa [Nat.add_assoc, Nat.add_comm 1 n] using this

/-- C10: in every result of `BacktestEngine.run`, each trade opens strictly
before it closes, and each trade closes strictly before the next one opens
(the entry bar is never evaluated for exit and the exit bar never opens a
new position), so position intervals are disjoint. -/
theorem c10_trade_intervals_disjoint (e : BacktestEngine) (df : Df) (max_lookback : Nat) :
    (∀ t ∈ (e.run df max_lookback).trades, t.entry_idx < t.exit_idx) ∧
    List.Chain' (fun a b => a.exit_idx < b.entry_idx) (e.run df max_lookback).trades := by
  unfold BacktestEngine.run
  have hinit1 : TradesOk ([] : List Trade) max_lookback :=
    ⟨fun t ht => absurd ht (List.not_mem_nil t), List.Pairwise.nil⟩
  have hinit2 : PosOk ⟨[], [1], 1, none, {}⟩ max_lookback := fun p hpeq => by simp at hpeq
  have hfin := runBars_c10 e df (df.length - max_lookback) max_lookback
    ⟨[], [1], 1, none, {}⟩ hinit1 hinit2
  obtain ⟨hbnd, hpw⟩ := hfin
  by_cases ht :
      (runBars e df ⟨[], [1], 1, none, {}⟩ max_lookback (df.length - max_lookback)).trades = []
  · simp [calculate_stats, ht]
  · simp only [calculate_stats, if_neg ht]
    exact ⟨fun t htm => (hbnd t htm).1, hpw.chain'⟩

/-! ### C5/C6 — grid-search scoring and error surfacing -/

lemma optFold_keep {P : Type} (mt : Nat) (metric : BacktestResult → Rat)
    (evalc : P → Except Unit BacktestResult) (q : P) (rq : BacktestResult) (s : Rat) :
    ∀ (l : List P),
      (∀ c ∈ l, ∀ rc, evalc c = .ok rc → calculate_score mt metric rc ≤ s) →
      l.foldl (optStep mt metric evalc) (some (q, rq, s)) = some (q, rq, s)
  | [], _ => rfl
  | c :: t, h => by
      rw [List.foldl_cons]
      have hstep : optStep mt metric evalc (some (q, rq, s)) c = some (q, rq, s) := by
        cases hc : evalc c with
        | error u => simp [optStep, hc]
        | ok rc =>
            have hle := h c (List.mem_cons_self c t) rc hc
            simp only [optStep, hc]
            rw [if_neg (not_lt.mpr hle)]
      rw [hstep]
      exact optFold_keep mt metric evalc q rq s t
        (fun c2 hc2 rc hrc => h c2 (List.mem_cons_of_mem c hc2) rc hrc)

lemma optFold_reach {P : Type} (mt : Nat) (metric : BacktestResult → Rat)
    (evalc : P → Except Unit BacktestResult) (q : P) (rq : BacktestResult) (s : Rat)
    (hq : evalc q = .ok rq) (hs : calculate_score mt metric rq = s) :
    ∀ (l : List P) (acc : Option (P × BacktestResult × Rat)),
      q ∈ l →
      (∀ c ∈ l, ∀ rc, evalc c = .ok rc → c = q ∨ calculate_score mt metric rc < s) →
      (acc = none ∨ ∃ b, acc = some b ∧ b.2.2 < s) →
      l.foldl (optStep mt metric evalc) acc = some (q, rq, s)
  | [], _, hmem, _, _ => absurd hmem (List.not_mem_nil q)
  | c :: t, acc, hmem, hdom, hacc => by
      rw [List.foldl_cons]
      by_cases hcq : c = q
      · subst hcq
        have hstep : optStep mt metric evalc acc c = some (c, rq, s) := by
          rcases hacc with h0 | ⟨b, hb, hlt⟩
          · subst h0; simp [optStep, hq, hs]
          · subst hb
            simp only [optStep, hq, hs]
            rw [if_pos hlt]
        rw [hstep]
        apply optFold_keep
        intro c2 hc2 rc hrc
        rcases hdom c2 (List.mem_cons_of_mem c hc2) rc hrc with he | hlt
        · subst he
          rw [hq] at hrc
          cases hrc
          exact le_of_eq hs
        · exact le_of_lt hlt
      · have hqt : q ∈ t := by
          rcases List.mem_cons.mp hmem with h | h
          · exact absurd h.symm hcq
          · exact h
        have hacc2 : optStep mt metric evalc acc c = none ∨
            ∃ b, optStep mt metric evalc acc c = some b ∧ b.2.2 < s := by
          cases hc : evalc c with
          | error u => simpa [optStep, hc] using hacc
          | ok rc =>
              have hlt : calculate_score mt metric rc < s := by
                rcases hdom c (List.mem_cons_self c t) rc hc with he | hlt
                · exact absurd he hcq
                · exact hlt
              rcases hacc with h0 | ⟨b, hb, hblt⟩
              · subst h0
                exact Or.inr ⟨(c, rc, calculate_score mt metric rc), by simp [optStep, hc], hlt⟩
              · subst hb
                simp only [optStep, hc]
                split
                · exact Or.inr ⟨(c, rc, calculate_score mt metric rc), rfl, hlt⟩
                · exact Or.inr ⟨b, rfl, hblt⟩
        exact optFold_reach mt metric evalc q rq s hq hs t _ hqt
          (fun c2 hc2 rc hrc => hdom c2 (List.mem_cons_of_mem c hc2) rc hrc) hacc2

/-- C5 counterexample: a 2-combination grid in which only combination 0
reaches `min_trades = 10` (with total PNL 0), while combination 1 records 5
trades but total PNL 2000; the penalty is a finite 1000, so the rejected
combination scores 1000 > 0 and is returned as best. -/
theorem c5_penalty_counterexample :
    optimizer_run 10 BacktestResult.total_pnl_pct evalBig [0, 1] = .ok (1, rRejBig) ∧
    10 ≤ rQualCx.num_trades ∧ rRejBig.num_trades < 10 ∧
    rQualCx.total_pnl_pct < rRejBig.total_pnl_pct :=
  ⟨rfl, by decide, by decide, by decide⟩

/-- C5 amended: when exactly one combination `q` reaches `min_trades` and
every other combination either fails or scores strictly below `q` — its
metric minus the fixed 1000 penalty is less than `q`'s metric — the
optimizer returns `q` as best; in particular a qualifying combination wins
over higher-PNL rejected ones whenever their PNL edge stays below the
penalty. -/
theorem c5_min_trades_selection {P : Type} (mt : Nat) (metric : BacktestResult → Rat)
    (evalc : P → Except Unit BacktestResult) (combos : List P) (q : P) (rq : BacktestResult)
    (hmem : q ∈ combos) (hq : evalc q = .ok rq) (hnt : mt ≤ rq.num_trades)
    (hdom : ∀ c ∈ combos, c ≠ q → ∀ rc, evalc c = .ok rc →
      rc.num_trades < mt ∧ metric rc - 1000 < metric rq) :
    optimizer_run mt metric evalc combos = .ok (q, rq) := by
  have hs : calculate_score mt metric rq = metric rq := by
    unfold calculate_score
    rw [if_neg (by omega)]
  have hfold := optFold_reach mt metric evalc q rq (metric rq) hq hs combos none hmem
    (fun c hc rc hrc => by
      by_cases hcq : c = q
      · exact Or.inl hcq
      · right
        obtain ⟨h1, h2⟩ := hdom c hc hcq rc hrc
        have hsc : calculate_score mt metric rc = metric rc - 1000 := by
          unfold calculate_score
          rw [if_pos h1]
        rw [hsc]
        exact h2)
    (Or.inl rfl)
  unfold optimizer_run
  rw [hfold]

/-- C5 witness: combination 0 qualifies (10 trades, PNL 0); combination 1 is
rejected (2 trades) with PNL 500, within the penalty — the optimizer
returns combination 0. -/
theorem c5_min_trades_selection_witness :
    optimizer_run 10 BacktestResult.total_pnl_pct evalMild [0, 1] = .ok (0, rQual) :=
  c5_min_trades_selection 10 BacktestResult.total_pnl_pct evalMild [0, 1] 0 rQual
    (by decide) rfl (by decide)
    (by
      intro c hc hne rc hrc
      have hc1 : c = 1 := by
        rcases List.mem_cons.mp hc with h | h
        · exact absurd h hne
        · simpa using h
      subst hc1
      simp only [evalMild, if_neg (by omega : ¬ (1 : Nat) = 0), Except.ok.injEq] at hrc
      subst hrc
      exact ⟨by decide, by decide⟩)

lemma optStep_eq_none {P : Type} (mt : Nat) (metric : BacktestResult → Rat)
    (evalc : P → Except Unit BacktestResult) (acc : Option (P × BacktestResult × Rat))
    (c : P) :
    optStep mt metric evalc acc c = none ↔
    (acc = none ∧ exceptOk (evalc c) = false) := by
  cases hc : evalc c with
  | error u => simp [optStep, hc, exceptOk]
  | ok r =>
      cases acc with
      | none => simp [optStep, hc, exceptOk]
      | some b =>
          simp only [optStep, hc, exceptOk]
          split <;> simp

lemma optFold_none_iff {P : Type} (mt : Nat) (metric : BacktestResult → Rat)
    (evalc : P → Except Unit BacktestResult) :
    ∀ (l : List P) (acc : Option (P × BacktestResult × Rat)),
      l.foldl (optStep mt metric evalc) acc = none ↔
      (acc = none ∧ ∀ c ∈ l, exceptOk (evalc c) = false)
  | [], acc => by simp
  | c :: t, acc => by
      rw [List.foldl_cons, optFold_none_iff mt metric evalc t, optStep_eq_none]
      simp only [List.forall_mem_cons]
      tauto

/-- C6 counterexample: a single combination that completes normally with 0
trades — below the threshold 10 — still yields a normal
`OptimizationResult` (combination 0 with its penalized result), not the
terminal error the claim requires. -/
theorem c6_below_threshold_no_error :
    optimizer_run 10 BacktestResult.total_pnl_pct evalZero [0] = .ok (0, rZero) ∧
    rZero.num_trades < 10 :=
  ⟨rfl, by decide⟩

/-- C6 amended: `GridSearchOptimizer.run` surfaces the terminal error iff
every parameter combination failed (raised); a combination that completes
below the minimum-trade threshold is still scored (penalized) and tracked,
so it prevents the error. -/
theorem c6_error_iff_all_failed {P : Type} (mt : Nat) (metric : BacktestResult → Rat)
    (evalc : P → Except Unit BacktestResult) (combos : List P) :
    exceptOk (optimizer_run mt metric evalc combos) = false ↔
    ∀ c ∈ combos, exceptOk (evalc c) = false := by
  unfold optimizer_run
  cases hf : combos.foldl (optStep mt metric evalc) none with
  | none =>
      simp only [exceptOk]
      have := (optFold_none_iff mt metric evalc combos none).mp hf
      simpa using this.2
  | some b =>
      simp only [exceptOk]
      constructor
      · intro hcon
        exact absurd hcon (by simp)
      · intro hall
        have := (optFold_none_iff mt metric evalc combos none).mpr ⟨rfl, hall⟩
        rw [hf] at this
        exact absurd this (by simp)
